import Mathlib

/-!
Verification development for the phoneinfo identity-resolution core.

Shallow embedding of the repository's Python modules:
  * `transliteration.py` / `functions.py` — script detection and
    Latin/Cyrillic/Arabic → Hebrew transliteration,
  * `db.py` — nickname expansion and the per-provider cache rows,
  * `scoring.py` — the explainable name-matching engine,
  * `api_me.py` / `api_sync.py` / `lookup.py` — the cache-or-call pipeline.

Modelling conventions:
  * Python strings are Lean `String`s; most string manipulation is done on
    the underlying `List Char` so that concrete evaluation stays cheap.
  * ISO-8601 timestamps are modelled as instants measured in seconds
    (`Int`); a stored empty-string timestamp is `none` (`Option Int`).
    `datetime.fromisoformat`/`isoformat` round-trip is the identity under
    this abstraction, and `timedelta.days` is floor division by 86400.
  * Fallible code (HTTP errors that raise `ValueError`, the engine's
    unbound-local crash) returns `Except`.
  * Dictionaries with a fixed key set (flattened results, DB rows) are
    structures with one field per key.
  * `scoring_config.json` and `names.json` are absent from the source tree,
    so `load_config` yields `_default_config()` and `get_common_names`
    yields the empty table; the common-name table is kept as an explicit
    parameter `common` so that theorems can state their hypotheses about it.
-/

/-- Scripts distinguished by `detect_language` in transliteration.py. -/
inductive Lang where
  | he | ar | en | ru | other
deriving DecidableEq, Repr

/-- One character's Unicode-block classification, in the order the Python
code tests the ranges (Hebrew, Arabic, Latin letters, Cyrillic). -/
def classify_char (c : Char) : Option Lang :=
  let n := c.toNat
  if 0x0590 ≤ n ∧ n ≤ 0x05FF then some .he
  else if 0x0600 ≤ n ∧ n ≤ 0x06FF then some .ar
  else if (0x41 ≤ n ∧ n ≤ 0x5A) ∨ (0x61 ≤ n ∧ n ≤ 0x7A) then some .en
  else if 0x0400 ≤ n ∧ n ≤ 0x04FF then some .ru
  else none

/-- Left-to-right scan: the first classified character decides the
language of the whole string (transliteration.py, `detect_language`). -/
def detectL : List Char → Lang
  | [] => .other
  | c :: rest =>
    match classify_char c with
    | some l => l
    | none => detectL rest

/-- `detect_language` from transliteration.py. -/
def detect_language (w : String) : Lang := detectL w.data

/-- Whitespace-trimming on character lists (Python `str.strip()`). -/
def trimL (l : List Char) : List Char :=
  ((l.dropWhile Char.isWhitespace).reverse.dropWhile Char.isWhitespace).reverse

/-- `str.strip()` on strings. -/
def strTrim (s : String) : String := ⟨trimL s.data⟩

/-- Hebrew final-letter table from `apply_final_letter_rules`. -/
def final_letter_map : List (Char × Char) :=
  [('כ', 'ך'), ('מ', 'ם'), ('נ', 'ן'), ('פ', 'ף'), ('צ', 'ץ')]

/-- `apply_final_letter_rules` on a character list: replace the last letter
with its final form when it has one. -/
def apply_final_letter_rules_l (l : List Char) : List Char :=
  match l.getLast? with
  | none => l
  | some c =>
    match final_letter_map.lookup c with
    | some f => l.dropLast ++ [f]
    | none => l

/-- `apply_final_letter_rules` from transliteration.py. -/
def apply_final_letter_rules (s : String) : String :=
  ⟨apply_final_letter_rules_l s.data⟩

/-- Character table of `russian_to_hebrew`; unmapped characters are absent
(the Python per-character get with empty-string default drops them). -/
def russian_map : List (Char × List Char) :=
  [('А', ['א']), ('а', ['א']), ('Б', ['ב']), ('б', ['ב']), ('В', ['ו']), ('в', ['ו']),
   ('Г', ['ג']), ('г', ['ג']), ('Д', ['ד']), ('д', ['ד']), ('Е', ['א']), ('е', ['א']),
   ('Ё', ['י', 'ו']), ('ё', ['י', 'ו']), ('Ж', ['ז']), ('ж', ['ז']), ('З', ['ז']), ('з', ['ז']),
   ('И', ['י']), ('и', ['י']), ('Й', ['י']), ('й', ['י']), ('К', ['ק']), ('к', ['ק']),
   ('Л', ['ל']), ('л', ['ל']), ('М', ['מ']), ('м', ['מ']), ('Н', ['נ']), ('н', ['נ']),
   ('О', ['ו']), ('о', ['ו']), ('П', ['פ']), ('п', ['פ']), ('Р', ['ר']), ('р', ['ר']),
   ('С', ['ס']), ('с', ['ס']), ('Т', ['ת']), ('т', ['ת']), ('У', ['ו']), ('у', ['ו']),
   ('Ф', ['פ']), ('ф', ['פ']), ('Х', ['ח']), ('х', ['ח']), ('Ц', ['צ']), ('ц', ['צ']),
   ('Ч', ['צ']), ('ч', ['צ']), ('Ш', ['ש']), ('ш', ['ש']), ('Щ', ['ש', 'צ']), ('щ', ['ש', 'צ']),
   ('Ъ', []), ('ъ', []), ('Ы', ['י']), ('ы', ['י']), ('Ь', []), ('ь', []),
   ('Э', ['א']), ('э', ['א']), ('Ю', ['י', 'ו']), ('ю', ['י', 'ו']), ('Я', ['י', 'א']), ('я', ['י', 'א']),
   (' ', [' '])]

/-- Character table of `arabic_to_hebrew`. -/
def arabic_map : List (Char × List Char) :=
  [('ا', ['א']), ('ب', ['ב']), ('ت', ['ת']), ('ث', ['ת']), ('ج', ['ג']), ('ح', ['ח']),
   ('خ', ['ח']), ('د', ['ד']), ('ذ', ['ד']), ('ر', ['ר']), ('ز', ['ז']), ('س', ['ס']),
   ('ش', ['ש']), ('ص', ['צ']), ('ض', ['צ']), ('ط', ['ט']), ('ظ', ['ט']), ('ع', ['ע']),
   ('غ', ['ע']), ('ف', ['פ']), ('ق', ['ק']), ('ك', ['כ']), ('ل', ['ל']), ('م', ['מ']),
   ('ن', ['נ']), ('ه', ['ה']), ('و', ['ו']), ('ي', ['י']), ('ء', ['א']), ('أ', ['א']),
   ('إ', ['א']), ('ؤ', ['ו']), ('ئ', ['א']), ('ى', ['א']), ('ة', ['ה']), ('آ', ['א']),
   (' ', [' '])]

/-- The join of per-character table lookups (unmapped characters vanish). -/
def table_transliterate (table : List (Char × List Char)) (l : List Char) : List Char :=
  l.flatMap fun c => (table.lookup c).getD []

/-- `russian_to_hebrew` from transliteration.py. -/
def russian_to_hebrew (s : String) : String :=
  ⟨apply_final_letter_rules_l (table_transliterate russian_map s.data)⟩

/-- `arabic_to_hebrew` from transliteration.py. -/
def arabic_to_hebrew (s : String) : String :=
  ⟨apply_final_letter_rules_l (table_transliterate arabic_map s.data)⟩

/-- Single-character table of `english_to_hebrew` (`transliteration_map`);
the vowels a/e map to nothing mid-word. -/
def english_single_map : List (Char × List Char) :=
  [('a', []), ('b', ['ב']), ('c', ['ק']), ('d', ['ד']), ('e', []), ('f', ['פ']),
   ('g', ['ג']), ('h', ['ה']), ('i', ['י']), ('j', ['ג', '׳']), ('k', ['ק']), ('l', ['ל']),
   ('m', ['מ']), ('n', ['נ']), ('o', ['ו']), ('p', ['פ']), ('q', ['ק']), ('r', ['ר']),
   ('s', ['ס']), ('t', ['ת']), ('u', ['ו']), ('v', ['ו']), ('w', ['ו']), ('x', ['ק', 'ס']),
   ('y', ['י']), ('z', ['ז']), (' ', [' '])]

/-- Two-character digraph table of `english_to_hebrew` (`multi_char_map`).
All keys have length two, so the Python sort-by-length-descending scan is
a plain lookup of the next two lowercased characters. -/
def english_multi_map : List ((Char × Char) × List Char) :=
  [(('c', 'h'), ['ח']), (('s', 'h'), ['ש']), (('t', 'h'), ['ת']), (('k', 'h'), ['ח']),
   (('p', 'h'), ['פ']), (('o', 'o'), ['ו']), (('e', 'e'), ['י']), (('e', 'i'), ['י', 'י']),
   (('i', 'e'), ['י']), (('o', 'u'), ['ו']), (('a', 'i'), ['י', 'י']), (('a', 'y'), ['י', 'י']),
   (('e', 'y'), ['י', 'י']), (('a', 'e'), ['י', 'י']), (('c', 'k'), ['ק']),
   (('t', 't'), ['ת']), (('d', 'd'), ['ד']), (('n', 'n'), ['נ']), (('m', 'm'), ['מ']),
   (('s', 's'), ['ס']), (('l', 'l'), ['ל']), (('r', 'r'), ['ר']), (('f', 'f'), ['פ']),
   (('p', 'p'), ['פ']), (('b', 'b'), ['ב']), (('g', 'g'), ['ג']), (('c', 'c'), ['ק'])]

/-- Digraph lookup on the next two characters, lowercased
(`name[i:i+2].lower() == multi_char`). -/
def english_digraph (c1 c2 : Char) : Option (List Char) :=
  english_multi_map.lookup (c1.toLower, c2.toLower)

/-- One single-character step of the English scan: an initial vowel from
{a,e,o,u} becomes aleph, otherwise the single-character table applies. -/
def english_step (at_start : Bool) (c : Char) : List Char :=
  let cl := c.toLower
  if at_start ∧ (cl = 'a' ∨ cl = 'e' ∨ cl = 'o' ∨ cl = 'u') then ['א']
  else (english_single_map.lookup cl).getD []

/-- The `while i < len(name)` scan of `english_to_hebrew`: try the digraph
table on the next two characters first, else fall back to one character.
The boolean tracks `i == 0`. -/
def english_convert : List Char → Bool → List Char
  | [], _ => []
  | [c], at_start => english_step at_start c
  | c1 :: c2 :: rest2, at_start =>
    match english_digraph c1 c2 with
    | some h => h ++ english_convert rest2 false
    | none => english_step at_start c1 ++ english_convert (c2 :: rest2) false

/-- The trailing-`a` feminine-ending rule of `english_to_hebrew`:
if the (lowercased) input ends in `a`, a trailing aleph is upgraded to he,
otherwise he is appended. -/
def english_trailing_a (name_l : List Char) (raw : List Char) : List Char :=
  if (name_l.map Char.toLower).getLast? = some 'a' then
    if raw.getLast? = some 'א' then raw.dropLast ++ ['ה'] else raw ++ ['ה']
  else raw

/-- `english_to_hebrew` from transliteration.py. `common` is the
common-name lookup table of `get_common_names()` keyed by
`variant.lower().strip()` (empty in this source tree: `names.json` is
absent, so `load_common_names_json` returns the empty table). -/
def english_to_hebrew (common : List (String × String)) (name : String) : String :=
  match common.lookup (String.mk (trimL (name.data.map Char.toLower))) with
  | some h => h
  | none =>
    ⟨apply_final_letter_rules_l
      (english_trailing_a name.data (english_convert name.data true))⟩

/-- `transliterate_name` from transliteration.py: detect the script, then
dispatch; Hebrew and unrecognized input are returned unchanged. -/
def transliterate_name (common : List (String × String)) (word : String) : String :=
  if word = "" then ""
  else
    match detect_language word with
    | .ar => arabic_to_hebrew word
    | .en => english_to_hebrew common word
    | .ru => russian_to_hebrew word
    | .he => word
    | .other => word

/-! ## Fuzzy similarity (fuzzywuzzy `fuzz.ratio`)

`fuzz.ratio(s1, s2)` is modelled as the python-Levenshtein backend of
fuzzywuzzy: `round(100 * (lensum - dist) / lensum)` where `dist` is the
InDel distance (Levenshtein with substitution cost 2, i.e.
`len1 + len2 - 2 * LCS`) and `round` is Python's banker's rounding
(`utils.intr`). On every concrete pair these theorems evaluate, the
pure-Python difflib backend yields the same integer. -/

/-- InDel distance with explicit fuel (structural recursion on the fuel);
`fuel = xs.length + ys.length` always suffices. -/
def indel_fuel : Nat → List Char → List Char → Nat
  | 0, xs, ys => xs.length + ys.length
  | _ + 1, [], ys => ys.length
  | _ + 1, x :: xs, [] => (x :: xs).length
  | f + 1, x :: xs, y :: ys =>
    if x = y then indel_fuel f xs ys
    else 1 + min (indel_fuel f xs (y :: ys)) (indel_fuel f (x :: xs) ys)

/-- InDel (insert/delete-only) edit distance between character lists. -/
def indel_dist (xs ys : List Char) : Nat := indel_fuel (xs.length + ys.length) xs ys

/-- `round(num / den)` with banker's rounding (Python `round`), `den ≠ 0`. -/
def round_half_even (num den : Nat) : Nat :=
  let q := num / den
  let r := num % den
  if 2 * r < den then q
  else if den < 2 * r then q + 1
  else if q % 2 = 0 then q else q + 1

/-- `fuzz.ratio` as an integer percentage 0–100. -/
def fuzz_ratio (s1 s2 : String) : Nat :=
  let a := s1.data
  let b := s2.data
  let ls := a.length + b.length
  if ls = 0 then 100
  else round_half_even (100 * (ls - indel_dist a b)) ls

/-! ## Nickname expansion (db.py) -/

/-- Split a character list on commas (Python `str.split(',')`). -/
def split_on_comma : List Char → List (List Char)
  | [] => [[]]
  | c :: rest =>
    let r := split_on_comma rest
    if c = ',' then [] :: r
    else
      match r with
      | h :: t => (c :: h) :: t
      | [] => [[c]]

/-- `get_all_nicknames_for_name` from db.py. A nickname table row is
`(formal_name, comma-joined all_names)`. The Python function accumulates a
set; only membership in the result is ever consumed downstream, so the
result is a list that may repeat names. -/
def get_all_nicknames_for_name (rows : List (String × String)) (name : String) :
    List String :=
  rows.foldl
    (fun acc row =>
      let formal := strTrim row.1
      let all_names := (split_on_comma row.2.data).map fun l => String.mk (trimL l)
      if name = formal ∨ all_names.contains name then acc ++ formal :: all_names
      else acc)
    [name]

/-! ## Scoring configuration (scoring.py `_default_config`)

`scoring_config.json` is absent from the source tree, so `load_config`
returns `_default_config()`; theorems instantiate `default_config`. -/

/-- The `match_types` fixed tier scores. -/
structure MatchTypeScores where
  exact : Nat
  nickname : Nat
  transliteration_exact : Nat
  transliteration_fuzzy_high : Nat
  fuzzy_high : Nat
  fuzzy_medium : Nat
  fuzzy_low : Nat
  no_match : Nat
deriving DecidableEq, Repr

/-- The `fuzzy_thresholds` gates. -/
structure FuzzyThresholds where
  high : Nat
  medium : Nat
  low : Nat
deriving DecidableEq, Repr

/-- One `risk_tiers` entry (the default entries carry no `action`). -/
structure RiskTier where
  tmin : Nat
  label : String
deriving DecidableEq, Repr

/-- The scoring configuration record. -/
structure ScoreConfig where
  w_last_x100 : Nat
  w_first_x100 : Nat
  mt : MatchTypeScores
  ft : FuzzyThresholds
  tier_high : RiskTier
  tier_medium : RiskTier
  tier_low : RiskTier
  tier_none : RiskTier
  bonus_both_names_exact : Nat
  bonus_multi_api : Nat
  penalty_only_first : Int
deriving DecidableEq, Repr

/-- `_default_config()` from scoring.py. -/
def default_config : ScoreConfig where
  w_last_x100 := 65
  w_first_x100 := 35
  mt := ⟨100, 90, 95, 80, 75, 50, 25, 0⟩
  ft := ⟨85, 65, 45⟩
  tier_high := ⟨85, "HIGH"⟩
  tier_medium := ⟨60, "MEDIUM"⟩
  tier_low := ⟨35, "LOW"⟩
  tier_none := ⟨0, "VERY LOW"⟩
  bonus_both_names_exact := 5
  bonus_multi_api := 5
  penalty_only_first := -10

/-! ## Single-word matchers (scoring.py) -/

/-- Result of matching one name component (`score`/`match_type`/`details`).
The `details` strings are audit text; no theorem relies on their exact
wording, and the Python quote characters are omitted from them. -/
structure MatchRes where
  score : Nat
  match_type : String
  details : String
deriving DecidableEq, Repr

/-- `_transliterate_if_needed` from scoring.py. -/
def transliterate_if_needed (common : List (String × String)) (word : String) :
    String :=
  if word = "" then ""
  else if detect_language word = .he then word
  else transliterate_name common word

/-- Audit text for a fuzzy tier (`f"fuzzy {best_fuzzy}%"`). -/
def fuzzy_detail (n : Nat) : String := "fuzzy " ++ toString n ++ "%"

/-- `_match_single_word_internal` from scoring.py: the single-word matcher
used for first names (inside `_match_single_name`'s last-name word loop)
with tiers exact → transliteration-exact → transliteration-fuzzy/direct
fuzzy. It has no nickname tier. -/
def match_single_word_internal (cfg : ScoreConfig) (common : List (String × String))
    (cal_word api_word : String) : MatchRes :=
  let mt := cfg.mt
  let ft := cfg.ft
  let cal_clean := strTrim cal_word
  let api_clean := strTrim api_word
  if cal_clean = api_clean then ⟨mt.exact, "exact", "exact"⟩
  else
    let api_t := transliterate_if_needed common api_clean
    let cal_t := transliterate_if_needed common cal_clean
    if api_t ≠ "" ∧ api_t = cal_clean then
      ⟨mt.transliteration_exact, "transliteration_exact", "transliteration exact"⟩
    else if cal_t ≠ "" ∧ cal_t = api_clean then
      ⟨mt.transliteration_exact, "transliteration_exact", "transliteration exact"⟩
    else
      let s1 := if api_t ≠ "" ∧ api_t ≠ api_clean then fuzz_ratio cal_clean api_t else 0
      let s2 := if cal_t ≠ "" ∧ cal_t ≠ cal_clean then fuzz_ratio cal_t api_clean else 0
      let s3 := if api_t ≠ "" ∧ cal_t ≠ "" then fuzz_ratio cal_t api_t else 0
      let best_t := max (max s1 s2) s3
      let direct := fuzz_ratio cal_clean api_clean
      let best_f := max direct best_t
      if ft.high ≤ best_f then
        if direct < best_t then
          ⟨mt.transliteration_fuzzy_high, "transliteration_fuzzy_high", fuzzy_detail best_f⟩
        else ⟨mt.fuzzy_high, "fuzzy_high", fuzzy_detail best_f⟩
      else if ft.medium ≤ best_f then ⟨mt.fuzzy_medium, "fuzzy_medium", fuzzy_detail best_f⟩
      else if ft.low ≤ best_f then ⟨mt.fuzzy_low, "fuzzy_low", fuzzy_detail best_f⟩
      else ⟨mt.no_match, "no_match", fuzzy_detail best_f⟩

/-- Whitespace tokenizer accumulator (Python `str.split()`: tokens of
non-whitespace, empties dropped). -/
def split_ws_aux : List Char → List Char → List (List Char)
  | [], acc => if acc.isEmpty then [] else [acc.reverse]
  | c :: rest, acc =>
    if c.isWhitespace then
      if acc.isEmpty then split_ws_aux rest [] else acc.reverse :: split_ws_aux rest []
    else split_ws_aux rest (c :: acc)

/-- `s.split()` as a list of token strings. -/
def words (s : String) : List String := (split_ws_aux s.data []).map String.mk

/-- `" ".join(ws)`. -/
def join_space : List String → String
  | [] => ""
  | [w] => w
  | w :: ws => w ++ " " ++ join_space ws

/-- `[w.strip() for w in s.split() if w.strip() and len(w.strip()) > 1]`
(the tokens of `split()` are already stripped). -/
def valid_words (s : String) : List String :=
  (words s).filter fun w => strTrim w ≠ "" ∧ 1 < (strTrim w).length

/-- Suffix/prefix tokens skipped in the last-name word loop. -/
def skip_words : List String := ["-", "–", "—", "בע\"מ", "בעמ", "ltd", "בע״מ"]

/-- Audit text of a winning last-name word pair. -/
def last_name_detail (cal_w api_w d : String) : String :=
  "Last name word match: " ++ cal_w ++ " ~ " ++ api_w ++ " → " ++ d

/-- Tiers 3–5 of `_match_single_name` for first names: transliteration +
exact, transliteration + fuzzy (checked against the high gate before the
direct fuzzy score), then direct fuzzy with the medium/low gates on the
best of both. Detail strings are abbreviated. -/
def match_first_tail (cfg : ScoreConfig) (common : List (String × String))
    (cal_clean api_clean : String) : MatchRes :=
  let mt := cfg.mt
  let ft := cfg.ft
  let api_t := transliterate_if_needed common api_clean
  let cal_t := transliterate_if_needed common cal_clean
  if api_t ≠ "" ∧ api_t = cal_clean then
    ⟨mt.transliteration_exact, "transliteration_exact", "transliteration exact"⟩
  else if cal_t ≠ "" ∧ cal_t = api_clean then
    ⟨mt.transliteration_exact, "transliteration_exact", "transliteration exact"⟩
  else
    let s1 := if api_t ≠ "" ∧ api_t ≠ api_clean then fuzz_ratio cal_clean api_t else 0
    let s2 := if cal_t ≠ "" ∧ cal_t ≠ cal_clean then fuzz_ratio cal_t api_clean else 0
    let s3 := if api_t ≠ "" ∧ cal_t ≠ "" then fuzz_ratio cal_t api_t else 0
    let best_t := max (max s1 s2) s3
    if ft.high ≤ best_t then
      ⟨mt.transliteration_fuzzy_high, "transliteration_fuzzy_high", fuzzy_detail best_t⟩
    else
      let direct := fuzz_ratio cal_clean api_clean
      if ft.high ≤ direct then ⟨mt.fuzzy_high, "fuzzy_high", fuzzy_detail direct⟩
      else
        let best_f := max direct best_t
        if ft.medium ≤ best_f then ⟨mt.fuzzy_medium, "fuzzy_medium", fuzzy_detail best_f⟩
        else if ft.low ≤ best_f then ⟨mt.fuzzy_low, "fuzzy_low", fuzzy_detail best_f⟩
        else ⟨mt.no_match, "no_match", fuzzy_detail best_f⟩

/-- The nickname-variant pool built for the provider-side word in
`_match_single_name`: its own nickname class, plus the class of its
transliteration when that differs. -/
def nickname_api_variants (common : List (String × String))
    (rows : List (String × String)) (api_clean : String) : List String :=
  let api_t := transliterate_if_needed common api_clean
  let base := get_all_nicknames_for_name rows api_clean
  if api_t ≠ "" ∧ api_t ≠ api_clean then base ++ get_all_nicknames_for_name rows api_t
  else base

/-- `_match_single_name` from scoring.py. For last names
(`is_first = false`) it splits both sides into words of length > 1 and
keeps the best `_match_single_word_internal` over all pairs; for first
names it runs exact → nickname (when a nickname connection is present) →
the `match_first_tail` tiers. `conn` is the nickname table (`none` models
a `None` connection). -/
def match_single_name (cfg : ScoreConfig) (common : List (String × String))
    (conn : Option (List (String × String))) (cal_word api_word : String)
    (is_first : Bool) : MatchRes :=
  if cal_word = "" ∨ api_word = "" then ⟨0, "no_match", "Empty name"⟩
  else
    let cal_clean := strTrim cal_word
    let api_clean := strTrim api_word
    if ¬ is_first then
      let cal_words := valid_words cal_clean
      let api_words := valid_words api_clean
      if cal_words = [] ∨ api_words = [] then
        ⟨0, "no_match", "No valid words in last name"⟩
      else
        cal_words.foldl
          (fun best cal_w =>
            api_words.foldl
              (fun best api_w =>
                if skip_words.contains api_w then best
                else
                  let r := match_single_word_internal cfg common cal_w api_w
                  if best.score < r.score then
                    { r with details := last_name_detail cal_w api_w r.details }
                  else best)
              best)
          ⟨0, "no_match", ""⟩
    else
      if cal_clean = api_clean then ⟨cfg.mt.exact, "exact", "exact"⟩
      else
        match conn with
        | some rows =>
          let cal_variants := get_all_nicknames_for_name rows cal_clean
          let api_t := transliterate_if_needed common api_clean
          let api_variants := nickname_api_variants common rows api_clean
          if cal_variants.any (fun v => api_variants.contains v) then
            ⟨cfg.mt.nickname, "nickname", "nickname overlap"⟩
          else if cal_variants.contains api_t then
            ⟨cfg.mt.nickname, "nickname", "nickname via transliteration"⟩
          else match_first_tail cfg common cal_clean api_clean
        | none => match_first_tail cfg common cal_clean api_clean

/-! ## Score engine (scoring.py `ScoreEngine.score_match`) -/

/-- The flattened output of `score_match`. `breakdown` subfields that the
claims examine are lifted to top-level fields. `base_score_x100` is the
raw weighted base score scaled by 100: the configured weights have two
decimal places, so `base_score == base_score_x100 / 100` exactly, and on
every value the fixed tier scores can produce, Python's binary floating
point computes the same truncated final score as this exact arithmetic
(the Python breakdown additionally rounds the base to one decimal for
display). `breakdown_reason` is the `{"reason": ...}` breakdown of
`_empty_result` (empty otherwise). -/
structure ScoreOut where
  final_score : Nat
  risk_tier : String
  risk_action : String
  first_res : MatchRes
  last_res : MatchRes
  base_score_x100 : Int
  bonus : Nat
  penalty : Nat
  breakdown_reason : String
  explanation : String
deriving DecidableEq, Repr

/-- `ScoreEngine._empty_result`. -/
def empty_result (reason : String) : ScoreOut where
  final_score := 0
  risk_tier := "VERY LOW"
  risk_action := "High risk - no data to verify identity"
  first_res := ⟨0, "", ""⟩
  last_res := ⟨0, "", ""⟩
  base_score_x100 := 0
  bonus := 0
  penalty := 0
  breakdown_reason := reason
  explanation := "Score: 0 — " ++ reason

/-- `ScoreEngine._get_risk_tier`: first tier (high → medium → low → none)
whose minimum the score reaches; the none tier is the fallback. -/
def get_risk_tier (cfg : ScoreConfig) (score : Nat) : RiskTier :=
  if cfg.tier_high.tmin ≤ score then cfg.tier_high
  else if cfg.tier_medium.tmin ≤ score then cfg.tier_medium
  else if cfg.tier_low.tmin ≤ score then cfg.tier_low
  else cfg.tier_none

/-- Python `int()` of a value held in exact hundredths: truncation toward
zero of `x100 / 100`. -/
def py_int_x100 (x100 : Int) : Int :=
  if x100 < 0 then -((-x100).ediv 100) else x100.ediv 100

/-- `max(0, min(100, int(x)))` for a value held in hundredths. -/
def clamp_score (x100 : Int) : Nat := (max 0 (min 100 (py_int_x100 x100))).toNat

/-- Abbreviated numeric rendering (in hundredths) for the audit text (the
Python explanation prints floats; their exact decimal rendering is
immaterial to every claim and is abstracted here). -/
def fmt_x100 (x100 : Int) : String := toString x100 ++ "/100"

/-- `ScoreEngine._build_explanation` (audit text; structure follows the
Python line by line, float rendering abstracted by `fmt_q`). -/
def build_explanation (cal_name api_first api_last api_common_name api_source : String)
    (first_res last_res : MatchRes) (w_first_x100 w_last_x100 : Nat)
    (bonus : Nat) (penalty : Nat) (final_score : Nat) (tier : RiskTier) : String :=
  let api_display :=
    let d := strTrim (api_first ++ " " ++ api_last)
    if d ≠ "" then d else api_common_name
  String.intercalate "\n"
    ["Customer: " ++ cal_name,
     api_source ++ " API returned: " ++ api_display,
     "",
     "Last name: " ++ last_res.details,
     "  → " ++ last_res.match_type ++ " → score " ++ toString last_res.score ++
       " × weight " ++ fmt_x100 w_last_x100 ++ " = " ++
       fmt_x100 (last_res.score * w_last_x100),
     "",
     "First name: " ++ first_res.details,
     "  → " ++ first_res.match_type ++ " → score " ++ toString first_res.score ++
       " × weight " ++ fmt_x100 w_first_x100 ++ " = " ++
       fmt_x100 (first_res.score * w_first_x100),
     "",
     "Base score: " ++
       fmt_x100 (last_res.score * w_last_x100 + first_res.score * w_first_x100),
     "Bonus: " ++ toString bonus,
     "Penalty: " ++ toString penalty,
     "Final score: " ++ toString final_score ++ " → " ++ tier.label]

/-- The match types counted as exact for the both-names bonus. -/
def exact_types : List String := ["exact", "transliteration_exact", "nickname"]

/-- The provider first name after the common-name fallback of
`score_match` (`api_common_parts[0]` when `api_first` is empty). -/
def derived_api_first (api_first0 api_common_name : String) : String :=
  let common_parts := words api_common_name
  if api_first0 = "" ∧ common_parts ≠ [] then common_parts.headD "" else api_first0

/-- The provider last name after the common-name fallback of `score_match`
(the common name's words past the first, when `api_last` is empty). -/
def derived_api_last (api_last0 api_common_name : String) : String :=
  let common_parts := words api_common_name
  if api_last0 = "" ∧ 2 ≤ common_parts.length then join_space (common_parts.drop 1)
  else api_last0

/-- Body of `score_match` after the claimed name has been parsed.
`cal_first_parts = none` models the Python branch in which the local
variable `cal_first_parts` was never assigned (single-word claimed name);
reaching the `for part in cal_first_parts` loop there raises
`UnboundLocalError`, modelled as `Except.error`. -/
def score_core (cfg : ScoreConfig) (common : List (String × String))
    (conn : Option (List (String × String))) (cal_name : String)
    (cal_first cal_last : String) (cal_first_parts : Option (List String))
    (api_first0 api_last0 api_common_name api_source : String) :
    Except String ScoreOut :=
  let common_parts := words api_common_name
  let api_first := derived_api_first api_first0 api_common_name
  let api_last := derived_api_last api_last0 api_common_name
  if api_first = "" ∧ api_last = "" then .ok (empty_result "No name returned from API")
  else
    let last_res :=
      if cal_last ≠ "" ∧ api_last ≠ "" then
        match_single_name cfg common conn cal_last api_last false
      else if cal_last = "" then ⟨0, "no_input", "No last name provided by customer"⟩
      else ⟨0, "no_api_data", "No last name from API"⟩
    let first_res? : Except String MatchRes :=
      if cal_first ≠ "" ∧ api_first ≠ "" then
        match cal_first_parts with
        | none => .error "UnboundLocalError: cal_first_parts"
        | some ps =>
          let best := ps.foldl
            (fun best part =>
              let r := match_single_name cfg common conn part api_first true
              if best.score < r.score then r else best)
            ⟨0, "no_match", ""⟩
          let best :=
            if common_parts ≠ [] ∧ common_parts.headD "" ≠ api_first then
              ps.foldl
                (fun best part =>
                  let r := match_single_name cfg common conn part (common_parts.headD "") true
                  if best.score < r.score then r else best)
                best
            else best
          .ok best
      else if cal_first = "" then .ok ⟨0, "no_input", "No first name provided"⟩
      else .ok ⟨0, "no_api_data", "No first name from API"⟩
    match first_res? with
    | .error e => .error e
    | .ok first_res =>
      let base_x100 : Int :=
        if cal_last = "" ∨ (api_last = "" ∧ api_common_name = "") then
          100 * (first_res.score : Int)
        else if cal_first = "" then 100 * (last_res.score : Int)
        else (last_res.score : Int) * (cfg.w_last_x100 : Int) +
          (first_res.score : Int) * (cfg.w_first_x100 : Int)
      let bonus :=
        if exact_types.contains first_res.match_type ∧
            exact_types.contains last_res.match_type then
          cfg.bonus_both_names_exact
        else 0
      let penalty :=
        if 75 ≤ first_res.score ∧ last_res.score = 0 ∧ cal_last ≠ "" ∧ api_last ≠ "" then
          cfg.penalty_only_first.natAbs
        else 0
      let final_score := clamp_score (base_x100 + 100 * (bonus : Int) - 100 * (penalty : Int))
      let tier := get_risk_tier cfg final_score
      .ok
        { final_score := final_score
          risk_tier := tier.label
          risk_action := ""
          first_res := first_res
          last_res := last_res
          base_score_x100 := base_x100
          bonus := bonus
          penalty := penalty
          breakdown_reason := ""
          explanation :=
            build_explanation cal_name api_first api_last api_common_name api_source
              first_res last_res cfg.w_first_x100 cfg.w_last_x100 bonus penalty
              final_score tier }

/-- `ScoreEngine.score_match`: parse the claimed name into given/surname
(last word = surname), then run `score_core`. A single-word claimed name
leaves the Python local `cal_first_parts` unassigned. -/
def score_match (cfg : ScoreConfig) (common : List (String × String))
    (conn : Option (List (String × String)))
    (cal_name api_first api_last api_common_name api_source : String) :
    Except String ScoreOut :=
  match words cal_name with
  | [] => .ok (empty_result "Empty customer name")
  | [w] =>
    score_core cfg common conn cal_name w "" none api_first api_last
      api_common_name api_source
  | parts =>
    score_core cfg common conn cal_name (join_space parts.dropLast)
      (parts.getLastD "") (some parts.dropLast) api_first api_last
      api_common_name api_source

/-! ## Cache freshness and the lookup pipeline (lookup.py, db.py) -/

/-- `check_cache_freshness` from lookup.py: `cache_only` always fresh,
`refresh_days == 0` always stale, a missing timestamp always stale,
otherwise fresh when the whole-day age is below `refresh_days`
(`timedelta.days` is floor division of the second difference by 86400). -/
def check_cache_freshness (now : Int) (api_call_time : Option Int)
    (refresh_days : Nat) (cache_only : Bool) : Bool :=
  if cache_only then true
  else if refresh_days = 0 then false
  else
    match api_call_time with
    | none => false
    | some t => (now - t).fdiv 86400 < (refresh_days : Int)

/-- A row of the `me_data` table (db.py `init_db`), keyed by phone number. -/
structure MeRecord where
  phone_number : String
  cal_name : String
  user_email : String
  user_email_confirmed : String
  user_profile_picture : String
  user_first_name : String
  user_last_name : String
  user_gender : String
  user_is_verified : String
  user_slogan : String
  social_facebook : String
  social_twitter : String
  social_spotify : String
  social_instagram : String
  social_linkedin : String
  social_pinterest : String
  social_tiktok : String
  common_name : String
  me_profile_name : String
  result_strength : String
  whitelist : String
  api_call_time : Option Int
deriving DecidableEq, Repr

/-- The flat `me.*`-keyed response dictionary (field `x` stands for key
`me.x`, `social_x` for `me.social.x`; `phone_number`/`cal_name` are the
unprefixed echo keys added by the pipeline). -/
structure MeFlat where
  phone_number : String
  cal_name : String
  common_name : String
  profile_name : String
  result_strength : String
  profile_picture : String
  first_name : String
  last_name : String
  email : String
  email_confirmed : String
  gender : String
  is_verified : String
  slogan : String
  social_facebook : String
  social_twitter : String
  social_spotify : String
  social_instagram : String
  social_linkedin : String
  social_pinterest : String
  social_tiktok : String
  whitelist : String
  api_call_time : Option Int
deriving DecidableEq, Repr

/-- The `social_profiles` object of a raw ME response (`None`/absent
values are `none`; `flatten_user_data` replaces them by empty strings). -/
structure MeSocialRaw where
  facebook : Option String
  twitter : Option String
  spotify : Option String
  instagram : Option String
  linkedin : Option String
  pinterest : Option String
  tiktok : Option String
deriving DecidableEq, Repr

/-- The `user` object of a raw ME response. -/
structure MeUserRaw where
  profile_picture : Option String
  first_name : Option String
  last_name : Option String
  email : Option String
  email_confirmed : Option String
  gender : Option String
  is_verified : Option String
  slogan : Option String
  social_profiles : Option MeSocialRaw
deriving DecidableEq, Repr

/-- A raw ME API JSON response. -/
structure MeRaw where
  common_name : Option String
  me_profile_name : Option String
  result_strength : Option String
  whitelist : Option String
  user : Option MeUserRaw
deriving DecidableEq, Repr

/-- The empty social object (`{}`). -/
def MeSocialRaw.empty : MeSocialRaw := ⟨none, none, none, none, none, none, none⟩

/-- The empty user object (`{}`). -/
def MeUserRaw.empty : MeUserRaw := ⟨none, none, none, none, none, none, none, none, none⟩

/-- The empty response (`{}`). -/
def MeRaw.empty : MeRaw := ⟨none, none, none, none, none⟩

/-- `flatten_user_data` from api_me.py (with the `clean_data_for_db`
None-scrub of db.py folded in: every absent/None value is already the
empty string). The `me.api_call_time` key starts empty (`none`);
`phone_number`/`cal_name` are filled by the pipeline. -/
def me_flatten_user_data (r : MeRaw) : MeFlat :=
  let u := r.user.getD MeUserRaw.empty
  let sp := u.social_profiles.getD MeSocialRaw.empty
  { phone_number := ""
    cal_name := ""
    common_name := r.common_name.getD ""
    profile_name := r.me_profile_name.getD ""
    result_strength := r.result_strength.getD ""
    profile_picture := u.profile_picture.getD ""
    first_name := u.first_name.getD ""
    last_name := u.last_name.getD ""
    email := u.email.getD ""
    email_confirmed := u.email_confirmed.getD ""
    gender := u.gender.getD ""
    is_verified := u.is_verified.getD ""
    slogan := u.slogan.getD ""
    social_facebook := sp.facebook.getD ""
    social_twitter := sp.twitter.getD ""
    social_spotify := sp.spotify.getD ""
    social_instagram := sp.instagram.getD ""
    social_linkedin := sp.linkedin.getD ""
    social_pinterest := sp.pinterest.getD ""
    social_tiktok := sp.tiktok.getD ""
    whitelist := r.whitelist.getD ""
    api_call_time := none }

/-- `convert_db_to_response` from db.py (the `ME_DB_TO_FLAT` renaming). -/
def convert_db_to_response (r : MeRecord) : MeFlat where
  phone_number := r.phone_number
  cal_name := r.cal_name
  common_name := r.common_name
  profile_name := r.me_profile_name
  result_strength := r.result_strength
  profile_picture := r.user_profile_picture
  first_name := r.user_first_name
  last_name := r.user_last_name
  email := r.user_email
  email_confirmed := r.user_email_confirmed
  gender := r.user_gender
  is_verified := r.user_is_verified
  slogan := r.user_slogan
  social_facebook := r.social_facebook
  social_twitter := r.social_twitter
  social_spotify := r.social_spotify
  social_instagram := r.social_instagram
  social_linkedin := r.social_linkedin
  social_pinterest := r.social_pinterest
  social_tiktok := r.social_tiktok
  whitelist := r.whitelist
  api_call_time := r.api_call_time

/-- `me_flat_to_db_data` from db.py (the `ME_FLAT_TO_DB` renaming; the
dictionary it returns has no phone/cal_name/api_call_time keys — those
columns are filled by `save_to_db`). -/
def me_flat_to_db_data (f : MeFlat) : MeRecord where
  phone_number := ""
  cal_name := ""
  user_email := f.email
  user_email_confirmed := f.email_confirmed
  user_profile_picture := f.profile_picture
  user_first_name := f.first_name
  user_last_name := f.last_name
  user_gender := f.gender
  user_is_verified := f.is_verified
  user_slogan := f.slogan
  social_facebook := f.social_facebook
  social_twitter := f.social_twitter
  social_spotify := f.social_spotify
  social_instagram := f.social_instagram
  social_linkedin := f.social_linkedin
  social_pinterest := f.social_pinterest
  social_tiktok := f.social_tiktok
  common_name := f.common_name
  me_profile_name := f.profile_name
  result_strength := f.result_strength
  whitelist := f.whitelist
  api_call_time := none

/-- `save_to_db` from db.py: an `INSERT OR REPLACE` of the whole row for
the phone key. With `update_time` the timestamp is stamped `now`,
otherwise the timestamp already in `data` is kept (every caller that
passes `update_time=False` passes a row that carries its timestamp). -/
def save_to_db (now : Int) (phone cal_name : String) (data : MeRecord)
    (update_time : Bool) : MeRecord :=
  { data with
    phone_number := phone
    cal_name := cal_name
    api_call_time := if update_time then some now else data.api_call_time }

/-- Outcome of one ME HTTP exchange (`call_api` in api_me.py): HTTP 200
with a body, HTTP 404, or any other status (which raises `ValueError`). -/
inductive MeApi where
  | success (raw : MeRaw)
  | notFound
  | apiError (status : Nat)
deriving DecidableEq, Repr

/-- `call_api` from api_me.py: 200 → body, 404 → `None`, else raise. -/
def me_call_api : MeApi → Except Nat (Option MeRaw)
  | .success r => .ok (some r)
  | .notFound => .ok none
  | .apiError s => .error s

/-- Return value of `lookup_me` plus the post-state of the `me_data` row
for the looked-up phone (the table is modelled at the single key the call
touches). -/
structure MeLookupOut where
  result : MeFlat
  api_called : Bool
  from_cache : Bool
  db : Option MeRecord
deriving DecidableEq, Repr

/-- The no-fresh-cache tail of `lookup_me`: the `cache_only` sentinel
result, or the API call (404 flattens `{}`) followed by the cache write. -/
def lookup_me_miss (db : Option MeRecord) (phone cal_name : String)
    (cache_only : Bool) (now : Int) (api : MeApi) : Except Nat MeLookupOut :=
  if cache_only then
    let base := me_flatten_user_data MeRaw.empty
    let r := { base with
      phone_number := phone, cal_name := cal_name,
      common_name := "NOT IN CACHE" }
    .ok ⟨r, false, false, db⟩
  else
    match me_call_api api with
    | .error s => .error s
    | .ok opt =>
      let flattened := me_flatten_user_data (opt.getD MeRaw.empty)
      let fl := { flattened with
        phone_number := phone, cal_name := cal_name,
        api_call_time := some now }
      .ok ⟨fl, true, false, some (save_to_db now phone cal_name (me_flat_to_db_data fl) true)⟩

/-- `lookup_me` from lookup.py: read the cache row, decide freshness; if
fresh, maybe rewrite the stored claimed name (timestamp preserved) and
return the cached row; otherwise fall through to `lookup_me_miss`. -/
def lookup_me (db : Option MeRecord) (phone cal_name : String) (refresh_days : Nat)
    (cache_only : Bool) (now : Int) (api : MeApi) : Except Nat MeLookupOut :=
  match db with
  | some rec =>
    if check_cache_freshness now rec.api_call_time refresh_days cache_only then
      let doUpd := rec.cal_name ≠ cal_name ∧ cal_name ≠ ""
      let rec2 := if doUpd then { rec with cal_name := cal_name } else rec
      let db2 := if doUpd then some (save_to_db now phone cal_name rec2 false) else some rec
      let r0 := convert_db_to_response rec2
      let r := { r0 with
        phone_number := phone,
        cal_name := if cal_name ≠ "" then cal_name else rec2.cal_name }
      .ok ⟨r, false, true, db2⟩
    else lookup_me_miss db phone cal_name cache_only now api
  | none => lookup_me_miss db phone cal_name cache_only now api

/-- A row of the `sync_data` table (db.py `init_db`). -/
structure SyncRecord where
  phone_number : String
  cal_name : String
  name : String
  first_name : String
  last_name : String
  is_potential_spam : String
  is_business : String
  job_hint : String
  company_hint : String
  website_domain : String
  company_domain : String
  api_call_time : Option Int
deriving DecidableEq, Repr

/-- The `results` object of a raw SYNC response. -/
structure SyncRaw where
  name : Option String
  is_potential_spam : Option String
  is_business : Option String
  job_hint : Option String
  company_hint : Option String
  website_domain : Option String
  company_domain : Option String
deriving DecidableEq, Repr

/-- The empty response (`{}`). -/
def SyncRaw.empty : SyncRaw := ⟨none, none, none, none, none, none, none⟩

/-- The flat `sync.*` dictionary produced by `flatten_user_data` in
api_sync.py. -/
structure SyncFlat where
  name : String
  first_name : String
  last_name : String
  is_potential_spam : String
  is_business : String
  job_hint : String
  company_hint : String
  website_domain : String
  company_domain : String
  api_call_time : Option Int
deriving DecidableEq, Repr

/-- `flatten_user_data` from api_sync.py: `name.strip().split(maxsplit=1)`
gives the first token as first name and the (internally spaced) remainder
as last name. -/
def sync_flatten_user_data (r : SyncRaw) : SyncFlat :=
  let full := r.name.getD ""
  let t := trimL full.data
  let first := t.takeWhile fun c => ¬ c.isWhitespace
  let rest := ((t.dropWhile fun c => ¬ c.isWhitespace).dropWhile Char.isWhitespace)
  { name := full
    first_name := ⟨first⟩
    last_name := ⟨rest⟩
    is_potential_spam := r.is_potential_spam.getD ""
    is_business := r.is_business.getD ""
    job_hint := r.job_hint.getD ""
    company_hint := r.company_hint.getD ""
    website_domain := r.website_domain.getD ""
    company_domain := r.company_domain.getD ""
    api_call_time := none }

/-- `sync_flat_to_db_data` from db.py (`SYNC_SAVE_FIELDS`; the Python
`str()` on the spam/business flags is the identity on this model's
strings). -/
def sync_flat_to_db_data (f : SyncFlat) : SyncRecord where
  phone_number := ""
  cal_name := ""
  name := f.name
  first_name := f.first_name
  last_name := f.last_name
  is_potential_spam := f.is_potential_spam
  is_business := f.is_business
  job_hint := f.job_hint
  company_hint := f.company_hint
  website_domain := f.website_domain
  company_domain := f.company_domain
  api_call_time := none

/-- `save_to_sync_db` from db.py. -/
def save_to_sync_db (now : Int) (phone cal_name : String) (data : SyncRecord)
    (update_time : Bool) : SyncRecord :=
  { data with
    phone_number := phone
    cal_name := cal_name
    api_call_time := if update_time then some now else data.api_call_time }

/-- Outcome of one SYNC HTTP exchange: 200 with a body, 404, or any other
status (400, 403, … all raise `ValueError` in api_sync.py). -/
inductive SyncApi where
  | success (raw : SyncRaw)
  | notFound
  | apiError (status : Nat)
deriving DecidableEq, Repr

/-- `call_api` from api_sync.py: 200 → body, 404 → `None`, else raise. -/
def sync_call_api : SyncApi → Except Nat (Option SyncRaw)
  | .success r => .ok (some r)
  | .notFound => .ok none
  | .apiError s => .error s

/-- The three-key result dictionary of `lookup_sync`. -/
structure SyncResult where
  first_name : String
  last_name : String
  api_call_time : Option Int
deriving DecidableEq, Repr

/-- Return value of `lookup_sync` plus the post-state of the `sync_data`
row for the looked-up phone. -/
structure SyncLookupOut where
  result : SyncResult
  api_called : Bool
  from_cache : Bool
  db : Option SyncRecord
deriving DecidableEq, Repr

/-- The no-fresh-cache tail of `lookup_sync`. -/
def lookup_sync_miss (db : Option SyncRecord) (phone cal_name : String)
    (cache_only : Bool) (now : Int) (api : SyncApi) : Except Nat SyncLookupOut :=
  if cache_only then .ok ⟨⟨"NOT IN CACHE", "", none⟩, false, false, db⟩
  else
    match sync_call_api api with
    | .error s => .error s
    | .ok opt =>
      let sync_flat := sync_flatten_user_data (opt.getD SyncRaw.empty)
      .ok ⟨⟨sync_flat.first_name, sync_flat.last_name, some now⟩, true, false,
           some (save_to_sync_db now phone cal_name (sync_flat_to_db_data sync_flat) true)⟩

/-- `lookup_sync` from lookup.py: on a fresh cache row it returns the three
cached fields unchanged (no cache write of any kind); otherwise it falls
through to `lookup_sync_miss`. -/
def lookup_sync (db : Option SyncRecord) (phone cal_name : String) (refresh_days : Nat)
    (cache_only : Bool) (now : Int) (api : SyncApi) : Except Nat SyncLookupOut :=
  match db with
  | some rec =>
    if check_cache_freshness now rec.api_call_time refresh_days cache_only then
      .ok ⟨⟨rec.first_name, rec.last_name, rec.api_call_time⟩, false, true, some rec⟩
    else lookup_sync_miss db phone cal_name cache_only now api
  | none => lookup_sync_miss db phone cal_name cache_only now api

/-- Whether the cache read of `lookup_me` hits a fresh row. -/
def me_cache_fresh (db : Option MeRecord) (now : Int) (refresh_days : Nat)
    (cache_only : Bool) : Bool :=
  match db with
  | some rec => check_cache_freshness now rec.api_call_time refresh_days cache_only
  | none => false

/-- Whether the cache read of `lookup_sync` hits a fresh row. -/
def sync_cache_fresh (db : Option SyncRecord) (now : Int) (refresh_days : Nat)
    (cache_only : Bool) : Bool :=
  match db with
  | some rec => check_cache_freshness now rec.api_call_time refresh_days cache_only
  | none => false

/-- A character of the Hebrew Unicode block (U+0590–U+05FF) or the space
character: the alphabet that every transliteration path emits. -/
def hebsp (c : Char) : Bool := (0x0590 ≤ c.toNat ∧ c.toNat ≤ 0x05FF) ∨ c = ' '

/-! ## Theorems -/

/-- C1: with caching in normal mode (`cache_only = false`) and a positive
refresh window, a cached record is classified stale exactly when its
whole-day age reaches `refresh_days`; a record fetched exactly
`refresh_days` ago is stale, one fetched `refresh_days - 1` days ago is
fresh, and a record with no timestamp is always stale. -/
theorem C1_freshness_boundary (now t : Int) (rd : Nat) (h : 0 < rd) :
    (check_cache_freshness now (some t) rd false = false ↔
      (rd : Int) ≤ (now - t).fdiv 86400)
    ∧ check_cache_freshness now none rd false = false
    ∧ check_cache_freshness now (some (now - (rd : Int) * 86400)) rd false = false
    ∧ check_cache_freshness now (some (now - ((rd : Int) - 1) * 86400)) rd false = true := by
  have hrd : ¬ rd = 0 := Nat.pos_iff_ne_zero.mp h
  have h864 : (86400 : Int) ≠ 0 := by norm_num
  refine ⟨?_, ?_, ?_, ?_⟩
  · simp [check_cache_freshness, hrd, not_lt]
  · simp [check_cache_freshness, hrd]
  · have : now - (now - (rd : Int) * 86400) = (rd : Int) * 86400 := by ring
    simp [check_cache_freshness, hrd, this, Int.mul_fdiv_cancel _ h864]
  · have : now - (now - ((rd : Int) - 1) * 86400) = ((rd : Int) - 1) * 86400 := by ring
    simp [check_cache_freshness, hrd, this, Int.mul_fdiv_cancel _ h864]

/-- Witness for C1 at `now = 0`, `t = -86400`, `refresh_days = 1`. -/
theorem C1_freshness_boundary_witness :
    0 < 1 ∧
    ((check_cache_freshness 0 (some (-86400)) 1 false = false ↔
        ((1 : Nat) : Int) ≤ ((0 : Int) - (-86400)).fdiv 86400)
      ∧ check_cache_freshness 0 none 1 false = false
      ∧ check_cache_freshness 0 (some ((0 : Int) - ((1 : Nat) : Int) * 86400)) 1 false = false
      ∧ check_cache_freshness 0 (some ((0 : Int) - (((1 : Nat) : Int) - 1) * 86400)) 1 false = true) :=
  ⟨by decide, C1_freshness_boundary 0 (-86400) 1 (by decide)⟩

/-- C8: with `cache_only = true` and no cache row for the phone (under
`cache_only` every present row passes the freshness check, so "no fresh
record" means no record), both providers return the sentinel
`"NOT IN CACHE"` in their primary name field, make no API call (the result
is the same for every possible API outcome and `called_api = false`), and
report `from_cache = false`. -/
theorem C8_cache_only_sentinel (phone cal : String) (rd : Nat) (now : Int)
    (api : MeApi) (sapi : SyncApi) :
    (lookup_me none phone cal rd true now api).toOption.map
        (fun o => (o.result.common_name, o.api_called, o.from_cache, o.db)) =
      some ("NOT IN CACHE", false, false, none)
    ∧ (lookup_sync none phone cal rd true now sapi).toOption.map
        (fun o => (o.result.first_name, o.result.last_name, o.api_called,
          o.from_cache, o.db)) =
      some ("NOT IN CACHE", "", false, false, none) :=
  ⟨rfl, rfl⟩

/-- C2 counterexample: the SYNC pipeline does **not** rewrite the stored
claimed name on a fresh cache hit. With a fresh row whose stored
`cal_name` is `"OLD"` and a caller-supplied non-empty, different name
`"NEW"`, `lookup_sync` returns the cached result but leaves the cache row
(including `cal_name = "OLD"`) untouched — no cache write occurs, contrary
to the claim that both providers rewrite the stored claimed name. -/
theorem C2_counterexample :
    lookup_sync (some ⟨"972555", "OLD", "A B", "A", "B", "", "", "", "", "", "", some 0⟩)
        "972555" "NEW" 30 false 0 .notFound =
      .ok ⟨⟨"A", "B", some 0⟩, false, true,
        some ⟨"972555", "OLD", "A B", "A", "B", "", "", "", "", "", "", some 0⟩⟩
    ∧ ("OLD" : String) ≠ "NEW" :=
  ⟨rfl, by decide⟩

/-- C2 (amended): on a fresh cache hit with a non-empty, different
caller-supplied claimed name, the **ME** pipeline rewrites the stored
`cal_name` — preserving the cached timestamp and every other stored field
(the post-state row is exactly the old row with only `cal_name` replaced) —
and returns the cached result with `from_cache = true`,
`called_api = false`; the **SYNC** pipeline performs no cache write at all
on a fresh hit and returns the cached fields unchanged. -/
theorem C2_claimed_name_update (rec : MeRecord) (srec : SyncRecord)
    (phone cal : String) (rd : Nat) (co : Bool) (now : Int)
    (api : MeApi) (sapi : SyncApi)
    (hfresh : check_cache_freshness now rec.api_call_time rd co = true)
    (hsfresh : check_cache_freshness now srec.api_call_time rd co = true)
    (hphone : rec.phone_number = phone)
    (hcal : cal ≠ "") (hdiff : rec.cal_name ≠ cal) :
    lookup_me (some rec) phone cal rd co now api =
      .ok ⟨{ convert_db_to_response rec with phone_number := phone, cal_name := cal },
        false, true, some { rec with cal_name := cal }⟩
    ∧ lookup_sync (some srec) phone cal rd co now sapi =
      .ok ⟨⟨srec.first_name, srec.last_name, srec.api_call_time⟩, false, true, some srec⟩ := by
  constructor
  · cases rec
    simp_all [lookup_me, save_to_db, convert_db_to_response, check_cache_freshness]
  · simp [lookup_sync, hsfresh]

/-- Witness for C2 (amended) at a concrete fresh row for each provider. -/
theorem C2_claimed_name_update_witness :
    lookup_me (some ⟨"9725", "OLD", "", "", "", "", "", "", "", "", "", "", "", "", "",
        "", "", "", "", "", "", some 0⟩) "9725" "NEW" 30 false 0 .notFound =
      .ok ⟨{ convert_db_to_response ⟨"9725", "OLD", "", "", "", "", "", "", "", "", "",
          "", "", "", "", "", "", "", "", "", "", some 0⟩ with
          phone_number := "9725", cal_name := "NEW" },
        false, true,
        some { (⟨"9725", "OLD", "", "", "", "", "", "", "", "", "", "", "", "", "",
          "", "", "", "", "", "", some 0⟩ : MeRecord) with cal_name := "NEW" }⟩
    ∧ lookup_sync (some ⟨"9725", "OLD", "A B", "A", "B", "", "", "", "", "", "", some 0⟩)
        "9725" "NEW" 30 false 0 .notFound =
      .ok ⟨⟨"A", "B", some 0⟩, false, true,
        some ⟨"9725", "OLD", "A B", "A", "B", "", "", "", "", "", "", some 0⟩⟩ :=
  C2_claimed_name_update
    ⟨"9725", "OLD", "", "", "", "", "", "", "", "", "", "", "", "", "",
      "", "", "", "", "", "", some 0⟩
    ⟨"9725", "OLD", "A B", "A", "B", "", "", "", "", "", "", some 0⟩
    "9725" "NEW" 30 false 0 .notFound .notFound
    (by decide) (by decide) rfl (by decide) (by decide)

/-- C3: when the cache read yields no fresh row and the provider reports
HTTP 404 (`NotFound`), neither pipeline raises: each returns a canonical
result whose provider name fields are all empty strings, with
`called_api = true` and `from_cache = false`, and overwrites the cache row
for the phone with that empty result (stamped with the call time). -/
theorem C3_notfound_empty (db : Option MeRecord) (sdb : Option SyncRecord)
    (phone cal : String) (rd : Nat) (now : Int)
    (hstale : me_cache_fresh db now rd false = false)
    (hsstale : sync_cache_fresh sdb now rd false = false) :
    lookup_me db phone cal rd false now .notFound =
      .ok ⟨⟨phone, cal, "", "", "", "", "", "", "", "", "", "", "", "", "", "", "",
          "", "", "", "", some now⟩,
        true, false,
        some ⟨phone, cal, "", "", "", "", "", "", "", "", "", "", "", "", "", "", "",
          "", "", "", "", some now⟩⟩
    ∧ lookup_sync sdb phone cal rd false now .notFound =
      .ok ⟨⟨"", "", some now⟩, true, false,
        some ⟨phone, cal, "", "", "", "", "", "", "", "", "", some now⟩⟩ := by
  constructor
  · cases db with
    | none =>
      simp [lookup_me, lookup_me_miss, me_call_api, me_flatten_user_data,
        me_flat_to_db_data, save_to_db, MeRaw.empty, MeUserRaw.empty, MeSocialRaw.empty]
    | some rec =>
      simp only [me_cache_fresh] at hstale
      simp [lookup_me, hstale, lookup_me_miss, me_call_api, me_flatten_user_data,
        me_flat_to_db_data, save_to_db, MeRaw.empty, MeUserRaw.empty, MeSocialRaw.empty]
  · cases sdb with
    | none =>
      simp [lookup_sync, lookup_sync_miss, sync_call_api, sync_flatten_user_data,
        sync_flat_to_db_data, save_to_sync_db, SyncRaw.empty, trimL]
    | some rec =>
      simp only [sync_cache_fresh] at hsstale
      simp [lookup_sync, hsstale, lookup_sync_miss, sync_call_api, sync_flatten_user_data,
        sync_flat_to_db_data, save_to_sync_db, SyncRaw.empty, trimL]

/-- Witness for C3 on an empty cache (`db = none`) for both providers. -/
theorem C3_notfound_empty_witness :
    lookup_me none "9725" "cal" 7 false 11 .notFound =
      .ok ⟨⟨"9725", "cal", "", "", "", "", "", "", "", "", "", "", "", "", "", "", "",
          "", "", "", "", some 11⟩,
        true, false,
        some ⟨"9725", "cal", "", "", "", "", "", "", "", "", "", "", "", "", "", "", "",
          "", "", "", "", some 11⟩⟩
    ∧ lookup_sync none "9725" "cal" 7 false 11 .notFound =
      .ok ⟨⟨"", "", some 11⟩, true, false,
        some ⟨"9725", "cal", "", "", "", "", "", "", "", "", "", some 11⟩⟩ :=
  C3_notfound_empty none none "9725" "cal" 7 11 (by decide) (by decide)

/-- A record stamped at the current instant is fresh for any positive
refresh window (its whole-day age is zero). -/
theorem check_fresh_at_now (now : Int) (rd : Nat) (hrd : 0 < rd) :
    check_cache_freshness now (some now) rd false = true := by
  have hrd' : ¬ rd = 0 := Nat.pos_iff_ne_zero.mp hrd
  simp [check_cache_freshness, hrd', Int.zero_fdiv]
  omega

/-- A fresh cache hit whose stored claimed name needs no update is a pure
read: `lookup_me` returns the cached row unchanged with no write. -/
theorem lookup_me_fresh_stable (rec : MeRecord) (phone cal : String) (rd : Nat)
    (now : Int) (api : MeApi)
    (hfresh : check_cache_freshness now rec.api_call_time rd false = true)
    (hcal : rec.cal_name = cal ∨ cal = "") :
    lookup_me (some rec) phone cal rd false now api =
      .ok ⟨{ convert_db_to_response rec with
             phone_number := phone,
             cal_name := if cal ≠ "" then cal else rec.cal_name },
        false, true, some rec⟩ := by
  have hnd : ¬ (rec.cal_name ≠ cal ∧ cal ≠ "") := by tauto
  simp [lookup_me, hfresh, hnd]

/-- After any successful `lookup_me` call in normal mode, the cache row is
present, fresh at the call instant, carries a stored claimed name
compatible with the caller's, and determines the returned result. -/
theorem lookup_me_ok_state (db : Option MeRecord) (phone cal : String) (rd : Nat)
    (now : Int) (api1 : MeApi) (out1 : MeLookupOut)
    (hrd : 0 < rd)
    (h1 : lookup_me db phone cal rd false now api1 = .ok out1) :
    ∃ rec, out1.db = some rec
      ∧ check_cache_freshness now rec.api_call_time rd false = true
      ∧ (rec.cal_name = cal ∨ cal = "")
      ∧ out1.result = { convert_db_to_response rec with
          phone_number := phone,
          cal_name := if cal ≠ "" then cal else rec.cal_name } := by
  have hmiss : ∀ h1' : lookup_me_miss db phone cal false now api1 = .ok out1,
      ∃ rec, out1.db = some rec
        ∧ check_cache_freshness now rec.api_call_time rd false = true
        ∧ (rec.cal_name = cal ∨ cal = "")
        ∧ out1.result = { convert_db_to_response rec with
            phone_number := phone,
            cal_name := if cal ≠ "" then cal else rec.cal_name } := by
    intro h1'
    cases api1 with
    | apiError s => simp [lookup_me_miss, me_call_api] at h1'
    | success raw =>
      simp only [lookup_me_miss, me_call_api, if_neg Bool.false_ne_true] at h1'
      rw [Except.ok.injEq] at h1'
      subst h1'
      refine ⟨_, rfl, check_fresh_at_now now rd hrd, Or.inl rfl, ?_⟩
      simp [convert_db_to_response, save_to_db, me_flat_to_db_data]
    | notFound =>
      simp only [lookup_me_miss, me_call_api, if_neg Bool.false_ne_true] at h1'
      rw [Except.ok.injEq] at h1'
      subst h1'
      refine ⟨_, rfl, check_fresh_at_now now rd hrd, Or.inl rfl, ?_⟩
      simp [convert_db_to_response, save_to_db, me_flat_to_db_data]
  cases db with
  | none => exact hmiss h1
  | some rec =>
    by_cases hc : check_cache_freshness now rec.api_call_time rd false = true
    · by_cases hd : rec.cal_name ≠ cal ∧ cal ≠ ""
      · obtain ⟨hd1, hd2⟩ := hd
        simp only [lookup_me, hc, if_true, hd1, hd2, ne_eq, not_false_iff, and_self,
          if_pos, Except.ok.injEq] at h1
        subst h1
        refine ⟨_, rfl, ?_, ?_, ?_⟩
        · simpa [save_to_db] using hc
        · left
          simp [save_to_db]
        · cases rec
          simp_all [convert_db_to_response, save_to_db]
      · simp only [lookup_me, hc, if_true, hd, if_false, Except.ok.injEq] at h1
        subst h1
        exact ⟨rec, rfl, hc, by tauto, rfl⟩
    · rw [lookup_me] at h1
      rw [if_neg hc] at h1
      exact hmiss h1

/-- After any successful `lookup_sync` call in normal mode, the cache row
is present, fresh at the call instant, and determines the returned
result. -/
theorem lookup_sync_ok_state (sdb : Option SyncRecord) (phone cal : String)
    (rd : Nat) (now : Int) (sapi1 : SyncApi) (sout1 : SyncLookupOut)
    (hrd : 0 < rd)
    (h1 : lookup_sync sdb phone cal rd false now sapi1 = .ok sout1) :
    ∃ rec, sout1.db = some rec
      ∧ check_cache_freshness now rec.api_call_time rd false = true
      ∧ sout1.result = ⟨rec.first_name, rec.last_name, rec.api_call_time⟩ := by
  have hmiss : ∀ h1' : lookup_sync_miss sdb phone cal false now sapi1 = .ok sout1,
      ∃ rec, sout1.db = some rec
        ∧ check_cache_freshness now rec.api_call_time rd false = true
        ∧ sout1.result = ⟨rec.first_name, rec.last_name, rec.api_call_time⟩ := by
    intro h1'
    cases sapi1 with
    | apiError s => simp [lookup_sync_miss, sync_call_api] at h1'
    | success raw =>
      simp only [lookup_sync_miss, sync_call_api, if_neg Bool.false_ne_true,
        Except.ok.injEq] at h1'
      subst h1'
      exact ⟨_, rfl, check_fresh_at_now now rd hrd, by simp [save_to_sync_db, sync_flat_to_db_data]⟩
    | notFound =>
      simp only [lookup_sync_miss, sync_call_api, if_neg Bool.false_ne_true,
        Except.ok.injEq] at h1'
      subst h1'
      exact ⟨_, rfl, check_fresh_at_now now rd hrd, by simp [save_to_sync_db, sync_flat_to_db_data]⟩
  cases sdb with
  | none => exact hmiss h1
  | some rec =>
    by_cases hc : check_cache_freshness now rec.api_call_time rd false = true
    · simp only [lookup_sync, hc, if_true, Except.ok.injEq] at h1
      subst h1
      exact ⟨rec, rfl, hc, rfl⟩
    · rw [lookup_sync] at h1
      rw [if_neg hc] at h1
      exact hmiss h1

/-- C4: in normal caching mode with a positive refresh window, a second
identical call made at the same instant as a successful first call (for
either provider) is a pure cache read: it returns exactly the first call's
result dictionary, with `from_cache = true` and `called_api = false`, and
performs no cache write (the row is unchanged) — regardless of what the
external API would have answered on the second call. -/
theorem C4_lookup_idempotent (db : Option MeRecord) (sdb : Option SyncRecord)
    (phone cal : String) (rd : Nat) (now : Int)
    (api1 api2 : MeApi) (sapi1 sapi2 : SyncApi)
    (out1 : MeLookupOut) (sout1 : SyncLookupOut)
    (hrd : 0 < rd)
    (h1 : lookup_me db phone cal rd false now api1 = .ok out1)
    (hs1 : lookup_sync sdb phone cal rd false now sapi1 = .ok sout1) :
    lookup_me out1.db phone cal rd false now api2 =
      .ok ⟨out1.result, false, true, out1.db⟩
    ∧ lookup_sync sout1.db phone cal rd false now sapi2 =
      .ok ⟨sout1.result, false, true, sout1.db⟩ := by
  constructor
  · obtain ⟨rec, hdb, hfresh, hcal, hres⟩ :=
      lookup_me_ok_state db phone cal rd now api1 out1 hrd h1
    rw [hdb, lookup_me_fresh_stable rec phone cal rd now api2 hfresh hcal, ← hres]
  · obtain ⟨rec, hdb, hfresh, hres⟩ :=
      lookup_sync_ok_state sdb phone cal rd now sapi1 sout1 hrd hs1
    rw [hdb, lookup_sync]
    rw [if_pos hfresh, ← hres]

/-- Witness for C4: first call on an empty cache with a 404 answer, second
call at the same instant against an API that would now fail. -/
theorem C4_lookup_idempotent_witness :
    lookup_me
        (some ⟨"9725", "cal", "", "", "", "", "", "", "", "", "", "", "", "", "", "",
          "", "", "", "", "", some 11⟩) "9725" "cal" 1 false 11 (.apiError 500) =
      .ok ⟨⟨"9725", "cal", "", "", "", "", "", "", "", "", "", "", "", "", "", "", "",
          "", "", "", "", some 11⟩,
        false, true,
        some ⟨"9725", "cal", "", "", "", "", "", "", "", "", "", "", "", "", "", "",
          "", "", "", "", "", some 11⟩⟩
    ∧ lookup_sync
        (some ⟨"9725", "cal", "", "", "", "", "", "", "", "", "", some 11⟩)
        "9725" "cal" 1 false 11 (.apiError 500) =
      .ok ⟨⟨"", "", some 11⟩, false, true,
        some ⟨"9725", "cal", "", "", "", "", "", "", "", "", "", some 11⟩⟩ :=
  C4_lookup_idempotent none none "9725" "cal" 1 11 .notFound (.apiError 500)
    .notFound (.apiError 500)
    ⟨⟨"9725", "cal", "", "", "", "", "", "", "", "", "", "", "", "", "", "", "",
        "", "", "", "", some 11⟩,
      true, false,
      some ⟨"9725", "cal", "", "", "", "", "", "", "", "", "", "", "", "", "", "",
        "", "", "", "", "", some 11⟩⟩
    ⟨⟨"", "", some 11⟩, true, false,
      some ⟨"9725", "cal", "", "", "", "", "", "", "", "", "", some 11⟩⟩
    (by decide) rfl rfl

/-- C7 (code bug): `score_match` raises for a data-quality reason. A
single-word claimed name takes the `len(cal_parts) == 1` branch, which
never assigns the Python local `cal_first_parts`; as soon as the provider
supplies a first name the `for part in cal_first_parts` loop raises
`UnboundLocalError` instead of returning a scored result. The documented
degraded-input paths that *are* handled (empty claimed name, provider
result with no name data) do return `final_score = 0`, tier `"VERY LOW"`
and a non-empty reason string, as the claim states. -/
theorem C7_score_match_crash :
    score_match default_config [] (some []) "דוד" "David" "Cohen" "" "ME" =
      .error "UnboundLocalError: cal_first_parts"
    ∧ (score_match default_config [] (some []) "" "David" "Cohen" "" "ME").toOption.map
        (fun o => (o.final_score, o.risk_tier, o.explanation)) =
      some (0, "VERY LOW", "Score: 0 — Empty customer name")
    ∧ (score_match default_config [] (some []) "דוד כהן" "" "" "" "ME").toOption.map
        (fun o => (o.final_score, o.risk_tier, o.explanation)) =
      some (0, "VERY LOW", "Score: 0 — No name returned from API") :=
  ⟨rfl, rfl, rfl⟩

/-- Under the default tier scores (all positive except `no_match = 0`), a
zero score from the internal single-word matcher can only come from its
`no_match` tier. -/
theorem internal_score_zero (common : List (String × String)) (w1 w2 : String)
    (h : (match_single_word_internal default_config common w1 w2).score = 0) :
    (match_single_word_internal default_config common w1 w2).match_type = "no_match" := by
  revert h
  unfold match_single_word_internal
  dsimp only [default_config]
  repeat' split
  all_goals intro h
  all_goals dsimp only at h ⊢
  all_goals first | rfl | omega

/-- C5 counterexample: the surname component and the given-name component
are **not** scored by the same single-word matcher. On the single-word
pair ("robert", "bob") with a nickname table linking them, the given-name
matcher fires its nickname tier (score 90), but the surname path — which
dispatches to `_match_single_word_internal`, a matcher with no nickname
tier — falls through to direct/transliteration fuzzy and returns the
`fuzzy_low` score 25. -/
theorem C5_counterexample :
    match_single_name default_config [] (some [("robert", "robert,bob")])
        "robert" "bob" true = ⟨90, "nickname", "nickname overlap"⟩
    ∧ (match_single_name default_config [] (some [("robert", "robert,bob")])
        "robert" "bob" false).score = 25
    ∧ (match_single_name default_config [] (some [("robert", "robert,bob")])
        "robert" "bob" false).match_type = "fuzzy_low" :=
  ⟨rfl, rfl, rfl⟩

/-- C5 (amended): for non-empty single words (trimmed, length > 1, the
provider word not in the skip list), the **given-name** component is
scored by the tier sequence exact → nickname-class overlap →
transliteration-exact → transliteration-fuzzy → direct fuzzy, while the
**surname** component is scored by `_match_single_word_internal`, which
runs the same tiers *without* the nickname tier; each tier returns its
fixed configured score (exact = 100, nickname = 90). Concretely: the
surname component's score and match type always equal the internal
matcher's; equal words make both components exact with score 100; and a
nickname-class overlap on unequal words makes the given-name component
(only) return the nickname score 90. -/
theorem C5_matcher_tiers (rows : List (String × String)) (w1 w2 : String)
    (ht1 : strTrim w1 = w1) (ht2 : strTrim w2 = w2)
    (hn1 : w1 ≠ "") (hn2 : w2 ≠ "")
    (hv1 : valid_words w1 = [w1]) (hv2 : valid_words w2 = [w2])
    (hskip : skip_words.contains w2 = false) :
    ((match_single_name default_config [] (some rows) w1 w2 false).score =
        (match_single_word_internal default_config [] w1 w2).score
      ∧ (match_single_name default_config [] (some rows) w1 w2 false).match_type =
        (match_single_word_internal default_config [] w1 w2).match_type)
    ∧ (w1 = w2 →
        match_single_name default_config [] (some rows) w1 w2 true =
          ⟨100, "exact", "exact"⟩
        ∧ match_single_word_internal default_config [] w1 w2 =
          ⟨100, "exact", "exact"⟩)
    ∧ (w1 ≠ w2 →
        (get_all_nicknames_for_name rows w1).any
          (fun v => (nickname_api_variants [] rows w2).contains v) = true →
        match_single_name default_config [] (some rows) w1 w2 true =
          ⟨90, "nickname", "nickname overlap"⟩) := by
  refine ⟨?_, ?_, ?_⟩
  · have hne : ¬ (w1 = "" ∨ w2 = "") := by tauto
    simp only [match_single_name, hne, if_false, Bool.not_eq_true, ht1, ht2, hv1, hv2,
      if_neg, List.foldl_cons, List.foldl_nil, hskip]
    dsimp only
    simp only [List.cons_ne_self, false_or, if_neg, reduceCtorEq, or_self, if_false]
    by_cases hz : 0 < (match_single_word_internal default_config [] w1 w2).score
    · simp [hz]
    · have hz0 : (match_single_word_internal default_config [] w1 w2).score = 0 := by
        omega
      simp [hz, hz0, internal_score_zero [] w1 w2 hz0]
  · intro heq
    subst heq
    have hne : ¬ (w1 = "" ∨ w1 = "") := by tauto
    constructor
    · simp [match_single_name, hne, ht1, hn1, default_config]
    · simp [match_single_word_internal, ht1, default_config]
  · intro hne12 hover
    have hne : ¬ (w1 = "" ∨ w2 = "") := by tauto
    simp only [List.any_eq_true] at hover
    simp [match_single_name, hne, ht1, ht2, hne12, hover, default_config]
    intro hall
    obtain ⟨x, hx, hx2⟩ := hover
    exact absurd (List.mem_of_elem_eq_true hx2) (hall x hx)

/-- Witness for C5 (amended) at the single-word pair ("robert", "bob")
with the nickname table linking them. -/
theorem C5_matcher_tiers_witness :
    ((match_single_name default_config [] (some [("robert", "robert,bob")])
          "robert" "bob" false).score =
        (match_single_word_internal default_config [] "robert" "bob").score
      ∧ (match_single_name default_config [] (some [("robert", "robert,bob")])
          "robert" "bob" false).match_type =
        (match_single_word_internal default_config [] "robert" "bob").match_type)
    ∧ (("robert" : String) = "bob" →
        match_single_name default_config [] (some [("robert", "robert,bob")])
          "robert" "bob" true = ⟨100, "exact", "exact"⟩
        ∧ match_single_word_internal default_config [] "robert" "bob" =
          ⟨100, "exact", "exact"⟩)
    ∧ (("robert" : String) ≠ "bob" →
        (get_all_nicknames_for_name [("robert", "robert,bob")] "robert").any
          (fun v => (nickname_api_variants [] [("robert", "robert,bob")] "bob").contains v) =
          true →
        match_single_name default_config [] (some [("robert", "robert,bob")])
          "robert" "bob" true = ⟨90, "nickname", "nickname overlap"⟩) :=
  C5_matcher_tiers [("robert", "robert,bob")] "robert" "bob"
    (by decide) (by decide) (by decide) (by decide) (by decide) (by decide) (by decide)

/-- Every token produced by the whitespace tokenizer is non-empty. -/
theorem mem_split_ws_aux_ne (l : List Char) :
    ∀ acc, ∀ t ∈ split_ws_aux l acc, t ≠ [] := by
  induction l with
  | nil =>
    intro acc t ht
    unfold split_ws_aux at ht
    by_cases h : acc.isEmpty
    · simp [h] at ht
    · simp [h] at ht
      subst ht
      simpa using fun hh => h (by simp [hh])
  | cons c rest ih =>
    intro acc t ht
    unfold split_ws_aux at ht
    by_cases hw : c.isWhitespace
    · simp only [hw, if_true] at ht
      by_cases ha : acc.isEmpty
      · simp only [ha, if_true] at ht
        exact ih [] t ht
      · simp only [ha, if_false, Bool.false_eq_true, List.mem_cons] at ht
        rcases ht with ht | ht
        · subst ht
          intro hh
          exact ha (by simp [List.reverse_eq_nil_iff.mp hh])
        · exact ih [] t ht
    · simp only [hw, if_false, Bool.false_eq_true] at ht
      exact ih (c :: acc) t ht

/-- Every word of `s.split()` is a non-empty string. -/
theorem words_mem_ne (s w : String) (hw : w ∈ words s) : w ≠ "" := by
  obtain ⟨t, ht, rfl⟩ := List.mem_map.mp hw
  have htne := mem_split_ws_aux_ne s.data [] t ht
  intro h
  apply htne
  have := congrArg String.data h
  simpa using this

/-- `" ".join` of a list headed by a non-empty word is non-empty. -/
theorem join_space_ne (w : String) (ws : List String) (hw : w ≠ "") :
    join_space (w :: ws) ≠ "" := by
  cases ws with
  | nil => simpa [join_space]
  | cons w2 ws2 =>
    intro h
    have hd := congrArg String.data h
    simp [join_space, String.data_append] at hd

/-- The last word of a non-empty word list is one of its members. -/
theorem getLastD_mem (x : String) (xs : List String) :
    (x :: xs).getLastD "" ∈ x :: xs := by
  rw [List.getLastD_eq_getLast?]
  simp [List.getLast?_eq_getLast]

/-- C6 counterexample: claimed name "אבי כהן" supplies both components and
the provider returns a first name with *no* surname data (`api_last`
empty, `api_common_name` the single word already used as the first name).
The claim says the given-name component should then receive 100% of the
weight (base 100); the code instead keeps the 65/35 split against a
zero-scored surname: base = 0·0.65 + 100·0.35 = 35, final score 35. -/
theorem C6_counterexample :
    (score_match default_config [] (some []) "אבי כהן" "אבי" "" "אבי" "ME").toOption.map
        (fun o => (o.first_res.score, o.last_res.score, o.base_score_x100, o.final_score,
          o.risk_tier)) =
      some (100, 0, 3500, 35, "LOW") :=
  rfl

/-- C6 (amended): in every successful `score_match` call, when the claimed
name has at least two words the base score keeps the 65%/35%
surname/given-name split unless the provider supplied *neither* a last
name (even via the common-name fallback) *nor* any common name at all —
only in that doubly-empty case (or when the claimed name lacks a surname,
i.e. is a single word) does the given-name component receive 100% of the
weight. In particular a provider result with an empty last name but a
non-empty (single-word) common name still carries the surname's 65% weight
with a zero surname score. Base scores are stated in exact hundredths
(`base_score_x100`). -/
theorem C6_weight_combination (common : List (String × String))
    (conn : Option (List (String × String)))
    (cal af al ac src : String) (out : ScoreOut)
    (h : score_match default_config common conn cal af al ac src = .ok out) :
    (2 ≤ (words cal).length → ¬(derived_api_last al ac = "" ∧ ac = "") →
      out.base_score_x100 =
        (out.last_res.score : Int) * 65 + (out.first_res.score : Int) * 35)
    ∧ (2 ≤ (words cal).length → derived_api_last al ac = "" → ac = "" →
      out.base_score_x100 = 100 * (out.first_res.score : Int))
    ∧ ((words cal).length = 1 →
      out.base_score_x100 = 100 * (out.first_res.score : Int)) := by
  rcases hp : words cal with _ | ⟨w, _ | ⟨w2, ws2⟩⟩
  · refine ⟨?_, ?_, ?_⟩ <;> intro h2 <;> simp at h2
  · have hw : w ≠ "" := words_mem_ne cal w (by rw [hp]; simp)
    refine ⟨?_, ?_, ?_⟩
    · intro h2
      simp at h2
    · intro h2
      simp at h2
    · intro _
      simp only [score_match, hp] at h
      unfold score_core at h
      dsimp only at h
      by_cases he : derived_api_first af ac = "" ∧ derived_api_last al ac = ""
      · rw [if_pos he, Except.ok.injEq] at h
        subst h
        simp [empty_result]
      · rw [if_neg he] at h
        by_cases hf : derived_api_first af ac = ""
        · rw [if_neg (by tauto : ¬(w ≠ "" ∧ derived_api_first af ac ≠ "")),
            if_neg hw] at h
          rw [Except.ok.injEq] at h
          subst h
          dsimp only
          rw [if_pos (Or.inl rfl)]
        · rw [if_pos ⟨hw, hf⟩] at h
          simp at h
  · have hw : w ≠ "" := words_mem_ne cal w (by rw [hp]; simp)
    have hlast : (w :: w2 :: ws2).getLastD "" ≠ "" :=
      words_mem_ne cal _ (by rw [hp]; exact getLastD_mem _ _)
    have hfirst : join_space ((w :: w2 :: ws2).dropLast) ≠ "" := by
      have hdl : (w :: w2 :: ws2).dropLast = w :: (w2 :: ws2).dropLast := rfl
      rw [hdl]
      exact join_space_ne w _ hw
    simp only [score_match, hp] at h
    unfold score_core at h
    dsimp only at h
    by_cases he : derived_api_first af ac = "" ∧ derived_api_last al ac = ""
    · rw [if_pos he, Except.ok.injEq] at h
      subst h
      refine ⟨?_, ?_, ?_⟩ <;> intros <;> simp [empty_result]
    · rw [if_neg he] at h
      by_cases hf : derived_api_first af ac = ""
      · rw [if_neg (by tauto :
            ¬(join_space ((w :: w2 :: ws2).dropLast) ≠ "" ∧
              derived_api_first af ac ≠ "")), if_neg hfirst] at h
        rw [Except.ok.injEq] at h
        subst h
        refine ⟨?_, ?_, ?_⟩
        · intro hlen hcond
          have hc1 : ¬((w :: w2 :: ws2).getLastD "" = "" ∨
              (derived_api_last al ac = "" ∧ ac = "")) := by
            rw [not_or]
            exact ⟨hlast, hcond⟩
          dsimp only
          rw [if_neg hc1, if_neg hfirst]
          norm_num [default_config]
        · intro hlen h1 h2
          exact absurd ⟨hf, h1⟩ he
        · intro hlen
          simp at hlen
      · rw [if_pos ⟨hfirst, hf⟩] at h
        dsimp only at h
        rw [Except.ok.injEq] at h
        subst h
        refine ⟨?_, ?_, ?_⟩
        · intro hlen hcond
          have hc1 : ¬((w :: w2 :: ws2).getLastD "" = "" ∨
              (derived_api_last al ac = "" ∧ ac = "")) := by
            rw [not_or]
            exact ⟨hlast, hcond⟩
          dsimp only
          rw [if_neg hc1, if_neg hfirst]
          norm_num [default_config]
        · intro hlen h1 h2
          have hc1 : ((w :: w2 :: ws2).getLastD "" = "" ∨
              (derived_api_last al ac = "" ∧ ac = "")) := Or.inr ⟨h1, h2⟩
          dsimp only
          rw [if_pos hc1]
        · intro hlen
          simp at hlen

/-- Witness for C6 (amended): at the counterexample input the claimed name
has two words and the provider's common name is non-empty, so the 65/35
split applies (and indeed yields 3500 hundredths there). -/
theorem C6_weight_combination_witness :
    ((score_match default_config [] (some []) "אבי כהן" "אבי" "" "אבי" "ME").toOption.getD
        (empty_result "zz")).base_score_x100 =
      (((score_match default_config [] (some []) "אבי כהן" "אבי" "" "אבי" "ME").toOption.getD
          (empty_result "zz")).last_res.score : Int) * 65 +
      (((score_match default_config [] (some []) "אבי כהן" "אבי" "" "אבי" "ME").toOption.getD
          (empty_result "zz")).first_res.score : Int) * 35 :=
  (C6_weight_combination [] (some []) "אבי כהן" "אבי" "" "אבי" "ME"
      ((score_match default_config [] (some []) "אבי כהן" "אבי" "" "אבי" "ME").toOption.getD
        (empty_result "zz")) rfl).1
    (by decide) (by decide)

/-- C9 counterexample: "ido" begins with the vowel `i`, yet the rule-based
transliteration produces "ידו" — the initial letter is yod, not the
glottal aleph the claim requires for every initial vowel (only a, e, o, u
receive the aleph; `i` maps to yod). -/
theorem C9_counterexample :
    english_to_hebrew [] "ido" = "ידו"
    ∧ (english_to_hebrew [] "ido").data.head? ≠ some 'א' :=
  ⟨rfl, by decide⟩

/-- C9 (amended): for input missed by the common-name table, the scan
tries the two-character digraph table before any single-character mapping;
an initial vowel among a/e/o/u (when not consumed by a digraph) produces
the glottal aleph, while an initial `i` produces yod; and an input whose
lowercase form ends in `a` yields output ending in the feminine-ending
letter he — a trailing aleph of the raw conversion is replaced by he,
anything else has he appended — with the final-letter correction leaving
that he in place. -/
theorem C9_english_rules :
    (∀ (c1 c2 : Char) (rest : List Char) (s : Bool) (h : List Char),
      english_digraph c1 c2 = some h →
      english_convert (c1 :: c2 :: rest) s = h ++ english_convert rest false)
    ∧ (∀ (c c2 : Char) (rest : List Char),
      (c.toLower = 'a' ∨ c.toLower = 'e' ∨ c.toLower = 'o' ∨ c.toLower = 'u') →
      english_digraph c c2 = none →
      english_convert (c :: c2 :: rest) true = 'א' :: english_convert (c2 :: rest) false)
    ∧ (∀ c : Char,
      (c.toLower = 'a' ∨ c.toLower = 'e' ∨ c.toLower = 'o' ∨ c.toLower = 'u') →
      english_convert [c] true = ['א'])
    ∧ (∀ (c2 : Char) (rest : List Char),
      english_digraph 'i' c2 = none →
      english_convert ('i' :: c2 :: rest) true = 'י' :: english_convert (c2 :: rest) false)
    ∧ (∀ (common : List (String × String)) (name : String),
      common.lookup (String.mk (trimL (name.data.map Char.toLower))) = none →
      (name.data.map Char.toLower).getLast? = some 'a' →
      (english_to_hebrew common name).data.getLast? = some 'ה') := by
  have hkeep : ∀ l : List Char, apply_final_letter_rules_l (l ++ ['ה']) = l ++ ['ה'] := by
    intro l
    unfold apply_final_letter_rules_l
    rw [List.getLast?_concat]
    rfl
  refine ⟨?_, ?_, ?_, ?_, ?_⟩
  · intro c1 c2 rest s h hd
    simp [english_convert, hd]
  · intro c c2 rest hv hd
    simp [english_convert, hd, english_step, hv]
  · intro c hv
    simp [english_convert, english_step, hv]
  · intro c2 rest hd
    simp only [english_convert, hd]
    have hstep : english_step true 'i' = ['י'] := rfl
    rw [hstep]
    rfl
  · intro common name hlk hend
    unfold english_to_hebrew
    rw [hlk]
    by_cases hr : (english_convert name.data true).getLast? = some 'א'
    · simp only [english_trailing_a, hend, if_true, hr, if_pos, reduceIte]
      rw [hkeep, List.getLast?_concat]
    · simp only [english_trailing_a, hend, if_true, hr, if_false, reduceIte]
      rw [hkeep, List.getLast?_concat]

/-- Witness for C9 (amended): digraph "sh" wins over single letters,
initial "a"/"o" give aleph, initial "i" gives yod, and "dana" (ending in
`a`, lookup miss on the empty table) transliterates to a he-final word. -/
theorem C9_english_rules_witness :
    english_convert ['s', 'h', 'y'] true = ['ש'] ++ english_convert ['y'] false
    ∧ english_convert ['a', 'b', 'c'] true = 'א' :: english_convert ['b', 'c'] false
    ∧ english_convert ['o'] true = ['א']
    ∧ english_convert ['i', 'd', 'o'] true = 'י' :: english_convert ['d', 'o'] false
    ∧ (english_to_hebrew [] "dana").data.getLast? = some 'ה' :=
  ⟨C9_english_rules.1 's' 'h' ['y'] true ['ש'] (by decide),
   C9_english_rules.2.1 'a' 'b' ['c'] (by decide) (by decide),
   C9_english_rules.2.2.1 'o' (by decide),
   C9_english_rules.2.2.2.1 'd' ['o'] (by decide),
   C9_english_rules.2.2.2.2 [] "dana" (by decide) (by decide)⟩

/-- A successful association-list lookup witnesses membership. -/
theorem lookup_mem {α β : Type} [BEq α] [LawfulBEq α] (l : List (α × β)) (k : α) (v : β)
    (h : l.lookup k = some v) : (k, v) ∈ l := by
  induction l with
  | nil => simp [List.lookup] at h
  | cons p rest ih =>
    obtain ⟨p1, p2⟩ := p
    rw [List.lookup] at h
    by_cases hk : k == p1
    · simp only [hk, if_pos] at h
      simp only [beq_iff_eq] at hk
      subst hk
      simp only [Option.some.injEq] at h
      subst h
      exact List.mem_cons_self _ _
    · simp only [Bool.not_eq_true] at hk
      rw [hk] at h
      exact List.mem_cons_of_mem _ (ih h)

/-- A Hebrew-or-space character is classified Hebrew, or is the space
character (which no Unicode range of `detect_language` covers). -/
theorem classify_hebsp (c : Char) (h : hebsp c = true) :
    classify_char c = some .he ∨ c = ' ' := by
  unfold hebsp at h
  simp only [Bool.or_eq_true, decide_eq_true_eq] at h
  rcases h with ⟨h1, h2⟩ | h2
  · left
    unfold classify_char
    rw [if_pos ⟨h1, h2⟩]
  · right
    exact h2

/-- A string made of Hebrew-block characters and spaces detects as Hebrew
or (when all spaces) as unrecognized. -/
theorem detect_hebsp (l : List Char) (h : ∀ c ∈ l, hebsp c = true) :
    detectL l = .he ∨ detectL l = .other := by
  induction l with
  | nil => right; rfl
  | cons c rest ih =>
    rcases classify_hebsp c (h c (List.mem_cons_self c rest)) with hcl | hsp
    · left
      simp [detectL, hcl]
    · subst hsp
      have hsp' : classify_char ' ' = none := rfl
      simp only [detectL, hsp']
      exact ih fun c hc => h c (List.mem_cons_of_mem _ hc)

/-- `transliterate_name` returns any Hebrew-and-spaces string unchanged
(it detects as Hebrew or, when all spaces or empty, as unrecognized). -/
theorem transliterate_fixes (common : List (String × String)) (s : String)
    (h : ∀ c ∈ s.data, hebsp c = true) :
    transliterate_name common s = s := by
  by_cases hs : s = ""
  · subst hs
    rfl
  · rcases detect_hebsp s.data h with hd | hd
    · have hd' : detect_language s = .he := hd
      simp [transliterate_name, hs, hd']
    · have hd' : detect_language s = .other := hd
      simp [transliterate_name, hs, hd']

/-- Character-table transliteration emits only table values. -/
theorem table_out_hebsp (table : List (Char × List Char))
    (htab : ∀ p ∈ table, ∀ c ∈ p.2, hebsp c = true) (l : List Char) :
    ∀ c ∈ table_transliterate table l, hebsp c = true := by
  intro c hc
  rw [table_transliterate, List.mem_flatMap] at hc
  obtain ⟨a, _, hc2⟩ := hc
  cases hlk : table.lookup a with
  | none =>
    rw [hlk] at hc2
    simp at hc2
  | some v =>
    rw [hlk] at hc2
    exact htab (a, v) (lookup_mem table a v hlk) c hc2

/-- The final-letter correction stays inside the Hebrew-and-spaces
alphabet. -/
theorem final_rules_hebsp (l : List Char) (h : ∀ c ∈ l, hebsp c = true) :
    ∀ c ∈ apply_final_letter_rules_l l, hebsp c = true := by
  intro c hc
  unfold apply_final_letter_rules_l at hc
  split at hc
  · exact h c hc
  · rename_i c0 hgl
    split at hc
    · rename_i f hlk
      rcases List.mem_append.mp hc with hm | hm
      · exact h c (List.dropLast_subset l hm)
      · have hf : ∀ p ∈ final_letter_map, hebsp p.2 = true := by decide
        rw [List.mem_singleton.mp hm]
        exact hf (c0, f) (lookup_mem final_letter_map c0 f hlk)
    · exact h c hc

/-- One step of the English scan emits only Hebrew characters and
spaces. -/
theorem english_step_hebsp (b : Bool) (c0 : Char) :
    ∀ c ∈ english_step b c0, hebsp c = true := by
  intro c hc
  simp only [english_step] at hc
  split at hc
  · rw [List.mem_singleton.mp hc]
    decide
  · cases hlk : english_single_map.lookup c0.toLower with
    | none =>
      rw [hlk] at hc
      simp at hc
    | some v =>
      rw [hlk] at hc
      have hv : ∀ p ∈ english_single_map, ∀ c ∈ p.2, hebsp c = true := by decide
      exact hv (c0.toLower, v) (lookup_mem _ _ _ hlk) c hc

/-- The English scan emits only Hebrew-block characters and spaces. -/
theorem english_convert_hebsp :
    ∀ (l : List Char) (s : Bool), ∀ c ∈ english_convert l s, hebsp c = true
  | [], _ => by simp [english_convert]
  | [c0], s => by
    intro c hc
    exact english_step_hebsp s c0 c hc
  | c1 :: c2 :: rest, s => by
    intro c hc
    rw [english_convert] at hc
    cases hd : english_digraph c1 c2 with
    | some h =>
      rw [hd] at hc
      rcases List.mem_append.mp hc with hc | hc
      · have hv : ∀ p ∈ english_multi_map, ∀ c ∈ p.2, hebsp c = true := by decide
        exact hv ((c1.toLower, c2.toLower), h) (lookup_mem _ _ _ hd) c hc
      · exact english_convert_hebsp rest false c hc
    | none =>
      rw [hd] at hc
      rcases List.mem_append.mp hc with hc | hc
      · exact english_step_hebsp s c1 c hc
      · exact english_convert_hebsp (c2 :: rest) false c hc

/-- `english_to_hebrew` emits only Hebrew-block characters and spaces,
provided the common-name table's values do. -/
theorem english_to_hebrew_hebsp (common : List (String × String))
    (hcom : ∀ p ∈ common, ∀ c ∈ p.2.data, hebsp c = true) (name : String) :
    ∀ c ∈ (english_to_hebrew common name).data, hebsp c = true := by
  unfold english_to_hebrew
  cases hlk : common.lookup (String.mk (trimL (name.data.map Char.toLower))) with
  | some h => exact hcom (_, h) (lookup_mem _ _ _ hlk)
  | none =>
    apply final_rules_hebsp
    unfold english_trailing_a
    split
    · split
      · intro c hc
        rcases List.mem_append.mp hc with hc | hc
        · exact english_convert_hebsp name.data true c (List.dropLast_subset _ hc)
        · rw [List.mem_singleton.mp hc]
          decide
      · intro c hc
        rcases List.mem_append.mp hc with hc | hc
        · exact english_convert_hebsp name.data true c hc
        · rw [List.mem_singleton.mp hc]
          decide
    · exact english_convert_hebsp name.data true

/-- C10: `transliterate_name` is idempotent (for any common-name table
whose values are Hebrew-and-spaces, in particular the empty one of this
source tree): every conversion path emits only Hebrew-block characters
and spaces, so a second pass detects Hebrew (or nothing) and returns its
input unchanged. -/
theorem C10_transliterate_idempotent (common : List (String × String))
    (hcom : ∀ p ∈ common, ∀ c ∈ p.2.data, hebsp c = true) (s : String) :
    transliterate_name common (transliterate_name common s) =
      transliterate_name common s := by
  by_cases hs : s = ""
  · subst hs
    rfl
  · cases hd : detect_language s with
    | he =>
      have h1 : transliterate_name common s = s := by simp [transliterate_name, hs, hd]
      rw [h1, h1]
    | other =>
      have h1 : transliterate_name common s = s := by simp [transliterate_name, hs, hd]
      rw [h1, h1]
    | en =>
      have h1 : transliterate_name common s = english_to_hebrew common s := by
        simp [transliterate_name, hs, hd]
      rw [h1]
      exact transliterate_fixes common _ (english_to_hebrew_hebsp common hcom s)
    | ru =>
      have h1 : transliterate_name common s = russian_to_hebrew s := by
        simp [transliterate_name, hs, hd]
      have hv : ∀ p ∈ russian_map, ∀ c ∈ p.2, hebsp c = true := by decide
      rw [h1]
      exact transliterate_fixes common _
        (final_rules_hebsp _ (table_out_hebsp russian_map hv s.data))
    | ar =>
      have h1 : transliterate_name common s = arabic_to_hebrew s := by
        simp [transliterate_name, hs, hd]
      have hv : ∀ p ∈ arabic_map, ∀ c ∈ p.2, hebsp c = true := by decide
      rw [h1]
      exact transliterate_fixes common _
        (final_rules_hebsp _ (table_out_hebsp arabic_map hv s.data))

/-- Witness for C10 with the (actual) empty common-name table on a Latin
input. -/
theorem C10_transliterate_idempotent_witness :
    transliterate_name [] (transliterate_name [] "David") = transliterate_name [] "David" :=
  C10_transliterate_idempotent [] (by simp) "David"
